import Mathlib

/-!
Verification of the h5ld quad decoding engine (`src/h5ld/adf.py`,
class `AllotropeDF`) against its natural-language specification.

The decoder is embedded shallowly:
* numpy `int64` values are modelled as `Int` (`%` / `/` on `Int` are the
  Euclidean operations, which on a positive divisor agree with the
  two's-complement semantics of `bitwise_and` with a low-bit mask and of the
  arithmetic `right_shift`);
* byte arrays are `List Nat`, strings are Lean `String`;
* fallible Python code (IndexError / ValueError / UnicodeDecodeError) is
  modelled with `Except DErr`.
-/

namespace H5LD

/-- Decode-time failures raised by the Python code. -/
inductive DErr where
  | indexError
  | valueError
  | unicodeDecodeError
deriving DecidableEq, Repr

/-! ## Packed node references (`AllotropeDF._get_quads`, lines 96-110)

The quads dataset holds signed 64-bit integers (`check_ld` asserts dtype
`int64`).  The decoder computes, for each packed word `quad`:

* `node_value_key = np.bitwise_and(quad, 0x7FFFFFFF)` — on a two's-complement
  int64, AND with `2^31 - 1` equals the Euclidean remainder mod `2^31`;
* `np.right_shift(quad, 31, out=quad)` — an arithmetic (sign-propagating)
  shift, i.e. floor division by `2^31`; it is performed in place, so later
  lines see the shifted buffer.  Euclidean and floor division agree for a
  positive divisor, so `Int` division models it exactly;
* `node_key = np.bitwise_and(<shifted>, 0x7FFFFFFF)`;
* `node_kind = np.bitwise_and(np.right_shift(<shifted>, 31), 3)`.
-/

/-- `np.bitwise_and(quad, 0x7FFFFFFF)` (computed before the in-place shift). -/
def node_value_key (quad : Int) : Int := quad % 2147483648

/-- The in-place `np.right_shift(quad, 31, out=quad)`. -/
def shiftedQuad (quad : Int) : Int := quad / 2147483648

/-- `np.bitwise_and(np.right_shift(quad, 31, out=quad), 0x7FFFFFFF)`. -/
def node_key (quad : Int) : Int := shiftedQuad quad % 2147483648

/-- `np.bitwise_and(np.right_shift(quad, 31), 3)`, applied to the already
shifted buffer, hence a total shift by 62 bits of the original word. -/
def node_kind (quad : Int) : Int := shiftedQuad quad / 2147483648 % 4

/-- Spec §3 packing: `kind` in bits 63-62, `resource_key` in bits 61-31,
`value_key` in bits 30-0 of a 64-bit word.  The word is stored as a signed
int64, so bit patterns at or above `2^63` denote negative values. -/
def packNode (kind resource_key value_key : Nat) : Int :=
  let u : Nat := kind * 4611686018427387904 + resource_key * 2147483648 + value_key
  if u < 9223372036854775808 then (u : Int) else (u : Int) - 18446744073709551616

/-- Claim C1: for every kind in {0,1,2}, resource_key in [0, 2^31) and
value_key in [0, 2^31), packing them into a 64-bit word (kind in bits 63-62,
resource_key in bits 61-31, value_key in bits 30-0) and extracting the three
fields the way the decoder does (mask, in-place shift and mask, shift and
mask) yields back the identical triple. -/
theorem C1_bit_layout_roundtrip (kind resource_key value_key : Nat)
    (hk : kind < 3) (hr : resource_key < 2147483648)
    (hv : value_key < 2147483648) :
    node_value_key (packNode kind resource_key value_key) = value_key ∧
    node_key (packNode kind resource_key value_key) = resource_key ∧
    node_kind (packNode kind resource_key value_key) = kind := by
  simp only [packNode, node_value_key, node_key, node_kind, shiftedQuad]
  split <;> omega

/-- Witness for C1 at kind = 2 (a literal node, whose packed word is negative
as an int64), resource_key = 5, value_key = 7. -/
theorem C1_witness :
    (2 < 3 ∧ 5 < 2147483648 ∧ 7 < 2147483648) ∧
    (node_value_key (packNode 2 5 7) = 7 ∧
     node_key (packNode 2 5 7) = 5 ∧
     node_kind (packNode 2 5 7) = 2) :=
  ⟨by decide,
   C1_bit_layout_roundtrip 2 5 7 (by decide) (by decide) (by decide)⟩

/-! ## Quad line assembly (`AllotropeDF._get_quads`, line 118)

`store.write(" ".join(quad_content[1:]) + f" {quad_content[0]}" + " .\n")`
where `quad_content` holds the four rendered nodes in table column order
`[graph, subject, predicate, object]`. -/

/-- Python `sep.join(parts)` for a list of strings. -/
def joinSep (sep : String) : List String → String
  | [] => ""
  | [x] => x
  | x :: y :: rest => x ++ sep ++ joinSep sep (y :: rest)

/-- The line written for one row: `" ".join(quad_content[1:])` followed by
`f" {quad_content[0]}"` followed by `" .\n"`, with `quad_content` in table
column order graph, subject, predicate, object. -/
def emitLine (graph subject predicate object : String) : String :=
  joinSep " " [subject, predicate, object] ++ (" " ++ graph) ++ " .\n"

/-- Claim C2: for every row whose four node slots are in table column order
[graph, subject, predicate, object], the emitted text line is exactly
`S P O G .\n` — subject, predicate, object, then graph, single spaces,
then a space, a period and a newline. -/
theorem C2_quad_line_order (graph subject predicate object : String) :
    emitLine graph subject predicate object =
      subject ++ " " ++ predicate ++ " " ++ object ++ " " ++ graph ++ " .\n" := by
  apply String.ext
  simp [emitLine, joinSep, String.data_append]

/-! ## Dictionary store (`AllotropeDF._get_string`, lines 45-52)

```
value = self.key_store[key, :]
if value[-1] > 0:
    return value[: value[-1]].tobytes().decode("utf-8")
else:
    start = np.frombuffer(value[:8], dtype=">i8")[0]
    count = np.frombuffer(value[8:-1], dtype=">i4")[0]
    return self.str_store[start : start + count].decode("utf-8")
```
-/

/-- Big-endian unsigned value of a byte list. -/
def beNat (bs : List Nat) : Nat := bs.foldl (fun a b => a * 256 + b) 0

/-- `np.frombuffer(_, dtype=">i8")[0]`: signed big-endian 64-bit value of the
first 8 bytes of a buffer. -/
def beInt64 (bs : List Nat) : Int :=
  let u := beNat (bs.take 8)
  if u < 9223372036854775808 then (u : Int) else (u : Int) - 18446744073709551616

/-- `np.frombuffer(_, dtype=">i4")[0]`: signed big-endian 32-bit value of the
first 4 bytes of a buffer. -/
def beInt32 (bs : List Nat) : Int :=
  let u := beNat (bs.take 4)
  if u < 2147483648 then (u : Int) else (u : Int) - 4294967296

/-- Normalize a (possibly negative) Python slice endpoint against a sequence
length: negative endpoints count from the end, and both directions clamp to
`[0, len]`. -/
def pyIdx (len : Nat) (i : Int) : Nat :=
  if i < 0 then (i + len).toNat else min i.toNat len

/-- Python slice `l[start:stop]` (step 1): clamps to the sequence bounds and
never raises. -/
def pySlice (l : List Nat) (start stop : Int) : List Nat :=
  (l.take (pyIdx l.length stop)).drop (pyIdx l.length start)

/-- Whether a byte is a UTF-8 continuation byte (`0x80..0xBF`). -/
def isCont (b : Nat) : Bool := 128 ≤ b && b ≤ 191

/-- Strict UTF-8 decoding of a byte list to code points, as performed by
Python's `bytes.decode("utf-8")`: rejects invalid leading bytes, truncated
sequences, overlong encodings, surrogates and values beyond `0x10FFFF`.
The fuel argument bounds recursion depth; one unit is spent per decoded
character, so an initial fuel of the byte count never runs out. -/
def utf8DecodeGo : Nat → List Nat → Option (List Char)
  | _, [] => some []
  | 0, _ :: _ => none
  | fuel + 1, b :: bs =>
    if b ≤ 127 then
      (utf8DecodeGo fuel bs).map (fun cs => Char.ofNat b :: cs)
    else if 194 ≤ b && b ≤ 223 then
      match bs with
      | b1 :: bs1 =>
        if isCont b1 then
          (utf8DecodeGo fuel bs1).map
            (fun cs => Char.ofNat ((b - 192) * 64 + (b1 - 128)) :: cs)
        else none
      | [] => none
    else if 224 ≤ b && b ≤ 239 then
      match bs with
      | b1 :: b2 :: bs2 =>
        if (if b = 224 then 160 ≤ b1 && b1 ≤ 191
            else if b = 237 then 128 ≤ b1 && b1 ≤ 159
            else isCont b1) && isCont b2 then
          (utf8DecodeGo fuel bs2).map
            (fun cs =>
              Char.ofNat ((b - 224) * 4096 + (b1 - 128) * 64 + (b2 - 128)) :: cs)
        else none
      | _ => none
    else if 240 ≤ b && b ≤ 244 then
      match bs with
      | b1 :: b2 :: b3 :: bs3 =>
        if (if b = 240 then 144 ≤ b1 && b1 ≤ 191
            else if b = 244 then 128 ≤ b1 && b1 ≤ 143
            else isCont b1) && isCont b2 && isCont b3 then
          (utf8DecodeGo fuel bs3).map
            (fun cs =>
              Char.ofNat ((b - 240) * 262144 + (b1 - 128) * 4096 +
                (b2 - 128) * 64 + (b3 - 128)) :: cs)
        else none
      | _ => none
    else none

/-- `bytes.decode("utf-8")`: either the decoded string or a fatal
`UnicodeDecodeError`. -/
def decodeUtf8 (bs : List Nat) : Except DErr String :=
  match utf8DecodeGo bs.length bs with
  | some cs => .ok (String.mk cs)
  | none => .error .unicodeDecodeError

/-- `AllotropeDF._get_string`.  `keyStore` is the `dictionary/keys` K×W byte
matrix, `strStore` the flat `dictionary/bytes` buffer.  Every call site masks
the key to 31 bits, so the key is never negative; numpy's negative-index
wraparound is therefore unreachable and a negative key is modelled as the
out-of-bounds `IndexError`.  `np.frombuffer` raises `ValueError` when the
buffer size is not a multiple of the item size, and indexing `[0]` into an
empty result raises `IndexError`. -/
def getString (keyStore : List (List Nat)) (strStore : List Nat)
    (key : Int) : Except DErr String :=
  if key < 0 then .error .indexError
  else
    match keyStore[key.toNat]? with
    | none => .error .indexError
    | some value =>
      match value.getLast? with
      | none => .error .indexError
      | some last =>
        if 0 < last then
          -- value[: value[-1]]: Python slicing clamps when last exceeds the width
          decodeUtf8 (value.take last)
        else
          -- start = np.frombuffer(value[:8], dtype=">i8")[0]
          if value.length < 8 then .error .valueError
          else
            let start := beInt64 (value.take 8)
            -- count = np.frombuffer(value[8:-1], dtype=">i4")[0]
            let mid := (value.drop 8).dropLast
            if mid.length % 4 ≠ 0 then .error .valueError
            else if mid.length = 0 then .error .indexError
            else
              let count := beInt32 (mid.take 4)
              decodeUtf8 (pySlice strStore start (start + count))

/-- Direct mode characterization: an in-range key whose row ends in a
positive byte resolves to the UTF-8 decoding of that many leading row bytes. -/
theorem getString_direct (ks : List (List Nat)) (ss : List Nat) (k : Nat)
    (row : List Nat) (n : Nat) (hrow : ks[k]? = some row)
    (hlast : row.getLast? = some n) (hn : 0 < n) :
    getString ks ss k = decodeUtf8 (row.take n) := by
  have hk : ((k : Int)).toNat = k := Int.toNat_natCast k
  simp only [getString, hk, hrow, hlast]
  rw [if_neg (by omega : ¬((k : Int) < 0))]
  simp [hn]

/-- Indirect mode characterization: an in-range key whose row ends in byte 0,
with a row width compatible with `np.frombuffer` (at least 8 offset bytes and
a multiple of 4 between byte 8 and the flag byte), resolves to the UTF-8
decoding of the Python-clamped byte-store slice `[start : start + count]`. -/
theorem getString_indirect (ks : List (List Nat)) (ss : List Nat) (k : Nat)
    (row : List Nat) (hrow : ks[k]? = some row)
    (hlast : row.getLast? = some 0) (hw : 13 ≤ row.length)
    (hmod : (row.length - 9) % 4 = 0) :
    getString ks ss k =
      decodeUtf8 (pySlice ss (beInt64 (row.take 8))
        (beInt64 (row.take 8) + beInt32 (((row.drop 8).dropLast).take 4))) := by
  have hk : ((k : Int)).toNat = k := Int.toNat_natCast k
  have hmidlen : ((row.drop 8).dropLast).length = row.length - 9 := by
    simp only [List.length_dropLast, List.length_drop]
    omega
  simp only [getString, hk, hrow, hlast]
  rw [if_neg (by omega : ¬((k : Int) < 0))]
  rw [if_neg (by omega : ¬(0 : Nat) < 0)]
  rw [if_neg (by omega : ¬row.length < 8)]
  rw [if_neg (by rw [hmidlen]; omega)]
  rw [if_neg (by rw [hmidlen]; omega)]

/-- A Python slice whose endpoints are in bounds is the plain sublist
`[start, stop)`. -/
theorem pySlice_of_bounds (l : List Nat) (start stop : Int) (h0 : 0 ≤ start)
    (hss : start ≤ stop) (hstop : stop ≤ l.length) :
    pySlice l start stop = (l.drop start.toNat).take (stop.toNat - start.toNat) := by
  have h1 : pyIdx l.length stop = stop.toNat := by
    simp only [pyIdx]
    rw [if_neg (by omega)]
    omega
  have h2 : pyIdx l.length start = start.toNat := by
    simp only [pyIdx]
    rw [if_neg (by omega)]
    omega
  simp only [pySlice, h1, h2, List.drop_take]

/-- Claim C3: dictionary dual-mode resolution.  For an in-range key: if the
key-table row's last byte `n` is positive, resolve returns the UTF-8 decoding
of the first `n` bytes of the row; if the last byte is 0, resolve reads an
8-byte big-endian offset `O` from the first 8 bytes and a 4-byte big-endian
length `L` from the bytes after them, and (for a well-formed in-bounds
reference) returns the UTF-8 decoding of byte-store bytes `[O, O+L)`. -/
theorem C3_dictionary_dual_mode (ks : List (List Nat)) (ss : List Nat)
    (k : Nat) (row : List Nat) (hrow : ks[k]? = some row) :
    (∀ n, row.getLast? = some n → 0 < n →
        getString ks ss k = decodeUtf8 (row.take n)) ∧
    (row.getLast? = some 0 → 13 ≤ row.length → (row.length - 9) % 4 = 0 →
      ∀ O L : Int, O = beInt64 (row.take 8) →
        L = beInt32 (((row.drop 8).dropLast).take 4) →
        0 ≤ O → 0 ≤ L → O + L ≤ ss.length →
        getString ks ss k = decodeUtf8 ((ss.drop O.toNat).take L.toNat)) := by
  constructor
  · intro n hlast hn
    exact getString_direct ks ss k row n hrow hlast hn
  · intro hlast hw hmod O L hO hL hO0 hL0 hOL
    rw [getString_indirect ks ss k row hrow hlast hw hmod, ← hO, ← hL]
    rw [pySlice_of_bounds ss O (O + L) hO0 (by omega) hOL]
    have harg : (O + L).toNat - O.toNat = L.toNat := by omega
    rw [harg]

/-- Witness for C3: the spec's two examples.  A direct row with last byte 3
and leading bytes `"foo"` resolves to `"foo"`; an indirect row with offset 10
and length 3 into the byte store `"xxxxxxxxxxbarxxxx"` resolves to `"bar"`. -/
theorem C3_witness :
    getString [[102, 111, 111, 0, 0, 0, 0, 0, 0, 0, 0, 0, 3]] [] 0 = .ok "foo" ∧
    getString [[0, 0, 0, 0, 0, 0, 0, 10, 0, 0, 0, 3, 0]]
      [120, 120, 120, 120, 120, 120, 120, 120, 120, 120,
       98, 97, 114, 120, 120, 120, 120] 0 = .ok "bar" := by
  constructor
  · have h := (C3_dictionary_dual_mode
      [[102, 111, 111, 0, 0, 0, 0, 0, 0, 0, 0, 0, 3]] [] 0
      [102, 111, 111, 0, 0, 0, 0, 0, 0, 0, 0, 0, 3] rfl).1 3 rfl (by decide)
    exact h.trans rfl
  · have h := (C3_dictionary_dual_mode
      [[0, 0, 0, 0, 0, 0, 0, 10, 0, 0, 0, 3, 0]]
      [120, 120, 120, 120, 120, 120, 120, 120, 120, 120,
       98, 97, 114, 120, 120, 120, 120] 0
      [0, 0, 0, 0, 0, 0, 0, 10, 0, 0, 0, 3, 0] rfl).2 rfl (by decide) (by decide)
      10 3 (by decide) (by decide) (by decide) (by decide) (by decide)
    exact h.trans rfl

/-- Claim C4 counterexample: an indirect row with offset 0 and length 5 into
a 2-byte store `"ab"` — the range [0, 5) exceeds the byte-store bounds, yet
resolve succeeds and returns the truncated string `"ab"` instead of
signalling a fatal error. -/
theorem C4_counterexample :
    5 > ([97, 98] : List Nat).length ∧
    getString [[0, 0, 0, 0, 0, 0, 0, 0, 0, 0, 0, 5, 0]] [97, 98] 0 =
      .ok "ab" :=
  ⟨by decide, rfl⟩

/-- Claim C4 amended: for every indirect-mode dictionary row (well-formed for
`np.frombuffer`, i.e. width at least 13 with a multiple of 4 between byte 8
and the flag byte), resolve never signals a bounds error; the slice
`[O, O+L)` is clamped to the byte store by Python slicing semantics and the
(possibly truncated or empty) clamped bytes are decoded as UTF-8, failing
only if they are not valid UTF-8. -/
theorem C4_amended_clamped_slice (ks : List (List Nat)) (ss : List Nat)
    (k : Nat) (row : List Nat) (hrow : ks[k]? = some row)
    (hlast : row.getLast? = some 0) (hw : 13 ≤ row.length)
    (hmod : (row.length - 9) % 4 = 0) :
    getString ks ss k =
      decodeUtf8 (pySlice ss (beInt64 (row.take 8))
        (beInt64 (row.take 8) + beInt32 (((row.drop 8).dropLast).take 4))) :=
  getString_indirect ks ss k row hrow hlast hw hmod

/-- Witness for C4's amended claim at the counterexample input: offset 0,
length 5, 2-byte store `"ab"`; the clamped slice decodes to `"ab"`. -/
theorem C4_amended_witness :
    getString [[0, 0, 0, 0, 0, 0, 0, 0, 0, 0, 0, 5, 0]] [97, 98] 0 =
      .ok "ab" := by
  have h := C4_amended_clamped_slice
    [[0, 0, 0, 0, 0, 0, 0, 0, 0, 0, 0, 5, 0]] [97, 98] 0
    [0, 0, 0, 0, 0, 0, 0, 0, 0, 0, 0, 5, 0] rfl rfl (by decide) (by decide)
  exact h.trans rfl

/-- Claim C10: indirect-mode resolution reads the 4-byte length from all
bytes of the row between position 8 and the final flag byte, so when the row
width `W` has `(W - 9) % 4 ≠ 0` every indirect-mode lookup fails with an
error (numpy `frombuffer` rejects a buffer that is not a multiple of the item
size) even when the offset and length fields are well-formed, while
direct-mode lookups in the same table are unaffected. -/
theorem C10_row_width_constraint (ks : List (List Nat)) (ss : List Nat)
    (k : Nat) (row : List Nat) (hrow : ks[k]? = some row) :
    (row.getLast? = some 0 → (row.length - 9) % 4 ≠ 0 →
        getString ks ss k = .error .valueError) ∧
    (∀ n, row.getLast? = some n → 0 < n →
        getString ks ss k = decodeUtf8 (row.take n)) := by
  constructor
  · intro hlast hmod
    have hk : ((k : Int)).toNat = k := Int.toNat_natCast k
    have hw : 10 ≤ row.length := by omega
    have hmidlen : ((row.drop 8).dropLast).length = row.length - 9 := by
      simp only [List.length_dropLast, List.length_drop]
      omega
    simp only [getString, hk, hrow, hlast]
    rw [if_neg (by omega : ¬((k : Int) < 0))]
    rw [if_neg (by omega : ¬(0 : Nat) < 0)]
    rw [if_neg (by omega : ¬row.length < 8)]
    rw [if_pos (by rw [hmidlen]; omega)]
  · intro n hlast hn
    exact getString_direct ks ss k row n hrow hlast hn

/-- Witness for C10 at row width 14 (so `W - 9 = 5` is not a multiple of 4):
the indirect row fails with a `ValueError` even though its offset and length
fields are well-formed, while a direct row of the same width resolves
normally. -/
theorem C10_witness :
    getString [[0, 0, 0, 0, 0, 0, 0, 0, 0, 0, 0, 1, 0, 0],
               [102, 111, 111, 0, 0, 0, 0, 0, 0, 0, 0, 0, 0, 3]] [120] 0 =
      .error .valueError ∧
    getString [[0, 0, 0, 0, 0, 0, 0, 0, 0, 0, 0, 1, 0, 0],
               [102, 111, 111, 0, 0, 0, 0, 0, 0, 0, 0, 0, 0, 3]] [120] 1 =
      .ok "foo" := by
  constructor
  · exact (C10_row_width_constraint
      [[0, 0, 0, 0, 0, 0, 0, 0, 0, 0, 0, 1, 0, 0],
       [102, 111, 111, 0, 0, 0, 0, 0, 0, 0, 0, 0, 0, 3]] [120] 0
      [0, 0, 0, 0, 0, 0, 0, 0, 0, 0, 0, 1, 0, 0] rfl).1 rfl (by decide)
  · have h := (C10_row_width_constraint
      [[0, 0, 0, 0, 0, 0, 0, 0, 0, 0, 0, 1, 0, 0],
       [102, 111, 111, 0, 0, 0, 0, 0, 0, 0, 0, 0, 0, 3]] [120] 1
      [102, 111, 111, 0, 0, 0, 0, 0, 0, 0, 0, 0, 0, 3] rfl).2 3 rfl (by decide)
    exact h.trans rfl

/-! ## Literal escaping (`AllotropeDF._literal_node`, lines 60-71)

The source applies, in this order, the Python replacements
`'"' -> '\"'`, `"'" -> "\'"`, tab -> `\t`, newline -> `\n`,
carriage-return -> `\r`, backspace -> `\b`, form-feed -> `\f`.
Special characters are written as `Char.ofNat`: 34 `"`, 39 single quote,
92 backslash, 9 tab, 10 newline, 13 carriage-return, 8 backspace,
12 form-feed. -/

/-- Python `str.replace(old, new)` for a single-character pattern. -/
def pyReplaceChar (old : Char) (new : List Char) : List Char → List Char
  | [] => []
  | c :: cs => (if c = old then new else [c]) ++ pyReplaceChar old new cs

/-- The source's replacement chain, first `'"'`, last form-feed. -/
def literalEscapeL (s : List Char) : List Char :=
  pyReplaceChar (Char.ofNat 12) [Char.ofNat 92, 'f']
    (pyReplaceChar (Char.ofNat 8) [Char.ofNat 92, 'b']
      (pyReplaceChar (Char.ofNat 13) [Char.ofNat 92, 'r']
        (pyReplaceChar (Char.ofNat 10) [Char.ofNat 92, 'n']
          (pyReplaceChar (Char.ofNat 9) [Char.ofNat 92, 't']
            (pyReplaceChar (Char.ofNat 39) [Char.ofNat 92, Char.ofNat 39]
              (pyReplaceChar (Char.ofNat 34) [Char.ofNat 92, Char.ofNat 34] s))))))

/-- The escaping performed on a literal's value string. -/
def literalEscape (s : String) : String := String.mk (literalEscapeL s.data)

/-- Single-pass per-character escaping following the claim's wording: the
seven substitutions, and every other character — in particular a literal
backslash — left unchanged. -/
def escCharSpec (c : Char) : List Char :=
  if c = Char.ofNat 34 then [Char.ofNat 92, Char.ofNat 34]
  else if c = Char.ofNat 39 then [Char.ofNat 92, Char.ofNat 39]
  else if c = Char.ofNat 9 then [Char.ofNat 92, 't']
  else if c = Char.ofNat 10 then [Char.ofNat 92, 'n']
  else if c = Char.ofNat 13 then [Char.ofNat 92, 'r']
  else if c = Char.ofNat 8 then [Char.ofNat 92, 'b']
  else if c = Char.ofNat 12 then [Char.ofNat 92, 'f']
  else [c]

theorem pyReplaceChar_append (old : Char) (new : List Char)
    (a b : List Char) :
    pyReplaceChar old new (a ++ b) =
      pyReplaceChar old new a ++ pyReplaceChar old new b := by
  induction a with
  | nil => rfl
  | cons c cs ih => simp [pyReplaceChar, ih]

theorem literalEscapeL_append (a b : List Char) :
    literalEscapeL (a ++ b) = literalEscapeL a ++ literalEscapeL b := by
  simp [literalEscapeL, pyReplaceChar_append]

theorem literalEscapeL_single (c : Char) :
    literalEscapeL [c] = escCharSpec c := by
  by_cases h1 : c = Char.ofNat 34
  · subst h1; decide
  by_cases h2 : c = Char.ofNat 39
  · subst h2; decide
  by_cases h3 : c = Char.ofNat 9
  · subst h3; decide
  by_cases h4 : c = Char.ofNat 10
  · subst h4; decide
  by_cases h5 : c = Char.ofNat 13
  · subst h5; decide
  by_cases h6 : c = Char.ofNat 8
  · subst h6; decide
  by_cases h7 : c = Char.ofNat 12
  · subst h7; decide
  simp [literalEscapeL, pyReplaceChar, escCharSpec, h1, h2, h3, h4, h5, h6, h7]

theorem literalEscapeL_eq_flatMap (s : List Char) :
    literalEscapeL s = s.flatMap escCharSpec := by
  induction s with
  | nil => rfl
  | cons c cs ih =>
    have hsplit : c :: cs = [c] ++ cs := rfl
    rw [hsplit, literalEscapeL_append, literalEscapeL_single, ih]
    simp

/-- Claim C6: the rendered literal applies, in the source's order, the seven
substitutions (double-quote, single-quote, tab, newline, carriage-return,
backspace, form-feed each to their backslash form); the sequential chain
equals a single per-character pass, and a literal backslash already present
in the value is left unescaped. -/
theorem C6_literal_escaping :
    (∀ s : String, literalEscape s = String.mk (s.data.flatMap escCharSpec)) ∧
    literalEscape (String.mk [Char.ofNat 92]) = String.mk [Char.ofNat 92] := by
  constructor
  · intro s
    rw [literalEscape, literalEscapeL_eq_flatMap]
  · decide

/-! ## Node renderers (`AllotropeDF._blank_node`, `_resource_node`,
`_literal_node`, lines 54-84) -/

/-- `AllotropeDF._resource_node`: `f"<{res}{val}>"`, resolving `val_key`
first as in the source. -/
def resource_node (ks : List (List Nat)) (ss : List Nat)
    (res_key val_key : Int) : Except DErr String := do
  let val ← getString ks ss val_key
  let res ← getString ks ss res_key
  return "<" ++ res ++ val ++ ">"

/-- `AllotropeDF._literal_node`: resolve and escape the value, then either a
bare quoted literal (`res_key == 0`) or a typed literal
`f"{val}"^^<{res}>`. -/
def literal_node (ks : List (List Nat)) (ss : List Nat)
    (res_key val_key : Int) : Except DErr String := do
  let val ← getString ks ss val_key
  let escaped := literalEscape val
  if res_key = 0 then
    return "\"" ++ escaped ++ "\""
  else
    let res ← getString ks ss res_key
    return "\"" ++ escaped ++ "\"^^<" ++ res ++ ">"

/-- `AllotropeDF._blank_node`: `val[0]` raises `IndexError` on an empty
resolved string; otherwise one leading `-` (`Char.ofNat 45`) is stripped and
`f"_:{val}"` is returned.  `res_key` is never read. -/
def blank_node (ks : List (List Nat)) (ss : List Nat)
    (res_key val_key : Int) : Except DErr String := do
  let val ← getString ks ss val_key
  match val.data with
  | [] => .error .indexError
  | c :: cs => return "_:" ++ (if c = Char.ofNat 45 then String.mk cs else val)

/-- Claim C7 counterexample: an indirect dictionary row with length 0
resolves to the empty string, and rendering a blank node over it raises
`IndexError` (`val[0]` on an empty string) instead of emitting `_:`. -/
theorem C7_counterexample :
    getString [[0, 0, 0, 0, 0, 0, 0, 0, 0, 0, 0, 0, 0]] [] 0 = .ok "" ∧
    blank_node [[0, 0, 0, 0, 0, 0, 0, 0, 0, 0, 0, 0, 0]] [] 0 0 =
      .error .indexError :=
  ⟨rfl, rfl⟩

/-- The claim's rendering rule: strip exactly one leading `-`
(`Char.ofNat 45`) when present. -/
def stripLeadingDash (s : String) : String :=
  match s.data with
  | c :: cs => if c = Char.ofNat 45 then String.mk cs else s
  | [] => s

/-- Claim C7 amended: for every nonempty string `s` returned by resolving a
blank node's `value_key`, rendering emits `_:` followed by `s` with exactly
one leading `-` stripped when present, and `resource_key` plays no role; on
the empty string the code instead raises `IndexError`. -/
theorem C7_amended_blank_node (ks : List (List Nat)) (ss : List Nat)
    (rk vk : Int) (s : String) (hres : getString ks ss vk = .ok s)
    (hne : s ≠ "") :
    blank_node ks ss rk vk = .ok ("_:" ++ stripLeadingDash s) ∧
    (∀ rk' : Int, blank_node ks ss rk' vk = blank_node ks ss rk vk) := by
  refine ⟨?_, fun rk' => rfl⟩
  obtain ⟨data⟩ := s
  cases data with
  | nil => exact absurd rfl hne
  | cons c cs =>
    simp only [blank_node]
    rw [hres]
    rfl

/-- Witness for C7: the spec's two examples — value `"-b1"` renders as
`_:b1` (one dash stripped) and value `"b1"` also renders as `_:b1`
(no strip without a leading dash). -/
theorem C7_witness :
    blank_node [[45, 98, 49, 0, 0, 0, 0, 0, 0, 0, 0, 0, 3],
                [98, 49, 0, 0, 0, 0, 0, 0, 0, 0, 0, 0, 2]] [] 0 0 =
      .ok "_:b1" ∧
    blank_node [[45, 98, 49, 0, 0, 0, 0, 0, 0, 0, 0, 0, 3],
                [98, 49, 0, 0, 0, 0, 0, 0, 0, 0, 0, 0, 2]] [] 0 1 =
      .ok "_:b1" := by
  constructor
  · have h := (C7_amended_blank_node
      [[45, 98, 49, 0, 0, 0, 0, 0, 0, 0, 0, 0, 3],
       [98, 49, 0, 0, 0, 0, 0, 0, 0, 0, 0, 0, 2]] [] 0 0 "-b1" rfl
      (by decide)).1
    exact h.trans rfl
  · have h := (C7_amended_blank_node
      [[45, 98, 49, 0, 0, 0, 0, 0, 0, 0, 0, 0, 3],
       [98, 49, 0, 0, 0, 0, 0, 0, 0, 0, 0, 0, 2]] [] 0 1 "b1" rfl
      (by decide)).1
    exact h.trans rfl

/-- Claim C8: for a literal node, `resource_key == 0` yields exactly the
double-quoted escaped value with no datatype annotation, and a nonzero
`resource_key` yields the double-quoted escaped value followed by `^^<`,
the resolved datatype IRI and `>`. -/
theorem C8_untyped_literal_sentinel (ks : List (List Nat)) (ss : List Nat)
    (rk vk : Int) (v : String) (hv : getString ks ss vk = .ok v) :
    (rk = 0 →
      literal_node ks ss rk vk = .ok ("\"" ++ literalEscape v ++ "\"")) ∧
    (rk ≠ 0 → ∀ r, getString ks ss rk = .ok r →
      literal_node ks ss rk vk =
        .ok ("\"" ++ literalEscape v ++ "\"^^<" ++ r ++ ">")) := by
  constructor
  · intro h0
    subst h0
    simp [literal_node, hv]
  · intro hne r hr
    simp only [literal_node]
    rw [hv]
    show (if rk = 0 then _ else _) = _
    rw [if_neg hne, hr]
    rfl

/-- Witness for C8: value `"v"` with `resource_key = 0` renders as `"v"`
with no annotation; with `resource_key = 1` resolving to `"T"` it renders
as `"v"^^<T>`. -/
theorem C8_witness :
    literal_node [[118, 0, 0, 0, 0, 0, 0, 0, 0, 0, 0, 0, 1],
                  [84, 0, 0, 0, 0, 0, 0, 0, 0, 0, 0, 0, 1]] [] 0 0 =
      .ok "\"v\"" ∧
    literal_node [[118, 0, 0, 0, 0, 0, 0, 0, 0, 0, 0, 0, 1],
                  [84, 0, 0, 0, 0, 0, 0, 0, 0, 0, 0, 0, 1]] [] 1 0 =
      .ok "\"v\"^^<T>" := by
  constructor
  · have h := (C8_untyped_literal_sentinel
      [[118, 0, 0, 0, 0, 0, 0, 0, 0, 0, 0, 0, 1],
       [84, 0, 0, 0, 0, 0, 0, 0, 0, 0, 0, 0, 1]] [] 0 0 "v" rfl).1 rfl
    exact h.trans rfl
  · have h := (C8_untyped_literal_sentinel
      [[118, 0, 0, 0, 0, 0, 0, 0, 0, 0, 0, 0, 1],
       [84, 0, 0, 0, 0, 0, 0, 0, 0, 0, 0, 0, 1]] [] 1 0 "v" rfl).2
      (by decide) "T" rfl
    exact h.trans rfl

/-! ## Row selection (`AllotropeDF._get_quads`, lines 88-104)

```
num_quads = quads.shape[0]            # row count BEFORE filtering
num_good_quads = quads.attrs["size"]
quads = quads[quads[:, -1] == 0, :-1] # keep valid rows, drop the flag column
for qrow in range(num_quads):
    if qrow >= num_good_quads:
        break
    quad = quads[qrow, :]             # indexes the FILTERED array
```
The loop bound is the unfiltered row count while the array indexed is the
filtered one, so `quads[qrow, :]` raises `IndexError` once `qrow` reaches
the number of valid rows. -/

/-- One row of the N×5 quads dataset:
`[graph, subject, predicate, object, validity_flag]`. -/
structure QuadRow where
  g : Int
  s : Int
  p : Int
  o : Int
  flag : Int
deriving DecidableEq, Repr

/-- `quads[quads[:, -1] == 0, :-1]`: the rows with validity flag 0, in
original order, with the flag column dropped. -/
def validRows (table : List QuadRow) : List (Int × Int × Int × Int) :=
  (table.filter (fun r => r.flag == 0)).map (fun r => (r.g, r.s, r.p, r.o))

/-- The row-selection loop: `qrow` runs from `i` for `k` more iterations
(the `range(num_quads)` bound), breaking once `qrow >= num_good_quads`, and
indexing the filtered array raises `IndexError` past its end. -/
def quadLoop (filtered : List α) (size : Nat) : Nat → Nat → Except DErr (List α)
  | _, 0 => .ok []
  | i, k + 1 =>
    if size ≤ i then .ok []
    else
      match filtered[i]? with
      | none => .error .indexError
      | some row => (quadLoop filtered size (i + 1) k).map (row :: ·)

/-- The rows the decoder processes: the loop over the original row count,
breaking at the `size` attribute, over the filtered array. -/
def selectQuads (table : List QuadRow) (size : Nat) :
    Except DErr (List (Int × Int × Int × Int)) :=
  quadLoop (validRows table) size 0 table.length

/-- Characterization of the selection loop started at index `i` with `k`
iterations left: it emits `filtered[i..m)` for `m = min (i+k) size` when
that stays within the filtered array, and raises `IndexError` otherwise. -/
theorem quadLoop_spec (filtered : List α) (size : Nat) :
    ∀ k i, i ≤ filtered.length →
      (min (i + k) size ≤ filtered.length →
        quadLoop filtered size i k =
          .ok ((filtered.drop i).take (min (i + k) size - i))) ∧
      (filtered.length < min (i + k) size →
        quadLoop filtered size i k = .error .indexError) := by
  intro k
  induction k with
  | zero =>
    intro i hi
    refine ⟨fun hle => ?_, fun hlt => ?_⟩
    · have : min (i + 0) size - i = 0 := by omega
      rw [this, quadLoop]
      simp
    · omega
  | succ k ih =>
    intro i hi
    by_cases hsi : size ≤ i
    · refine ⟨fun hle => ?_, fun hlt => ?_⟩
      · have : min (i + (k + 1)) size - i = 0 := by omega
        rw [this, quadLoop, if_pos hsi]
        simp
      · omega
    · rcases hgi : filtered[i]? with _ | row
      · have hlen : filtered.length ≤ i := by
          simpa using List.getElem?_eq_none_iff.mp hgi
        have hieq : i = filtered.length := by omega
        refine ⟨fun hle => by omega, fun hlt => ?_⟩
        rw [quadLoop, if_neg hsi, hgi]
      · obtain ⟨hilt, hrow⟩ := List.getElem?_eq_some_iff.mp hgi
        have hstep := ih (i + 1) (by omega)
        have hmin : min (i + 1 + k) size = min (i + (k + 1)) size := by omega
        refine ⟨fun hle => ?_, fun hlt => ?_⟩
        · have h1 := hstep.1 (by omega)
          rw [quadLoop, if_neg hsi, hgi, h1]
          have hdrop : filtered.drop i = filtered[i] :: filtered.drop (i + 1) :=
            List.drop_eq_getElem_cons hilt
          have htake : min (i + (k + 1)) size - i =
              (min (i + 1 + k) size - (i + 1)) + 1 := by omega
          rw [htake, hdrop, List.take_succ_cons, hrow, hmin]
          rfl
        · have h2 := hstep.2 (by omega)
          rw [quadLoop, if_neg hsi, hgi, h2]
          rfl

/-- Claim C5 counterexample: a 2-row table whose second row is invalid
(`validity_flag = 1`) with `size = 2` — `good_count` exceeds the single valid
row present, and instead of clamping the decoder raises `IndexError` when the
loop indexes past the end of the filtered array. -/
theorem C5_counterexample :
    (validRows [⟨1, 2, 3, 4, 0⟩, ⟨5, 6, 7, 8, 1⟩]).length = 1 ∧
    selectQuads [⟨1, 2, 3, 4, 0⟩, ⟨5, 6, 7, 8, 1⟩] 2 = .error .indexError :=
  ⟨rfl, rfl⟩

/-- Claim C5 amended: the decoder processes the rows with validity flag 0, in
original order, truncated to the first `good_count` of them, attempting
`min(good_count, total_row_count)` loop iterations.  When that many valid
rows exist — in particular whenever `good_count` is at most the valid-row
count, and also when `good_count` exceeds the total row count of an all-valid
table, where the loop range itself clamps — it emits exactly those valid rows
and stops without error.  But when `min(good_count, total_row_count)` exceeds
the number of valid rows (i.e. `good_count` overruns the valid rows while
invalid rows exist), the decoder raises `IndexError` rather than clamping. -/
theorem C5_truncation (table : List QuadRow) (size : Nat) :
    (min table.length size ≤ (validRows table).length →
      selectQuads table size =
        .ok ((validRows table).take (min table.length size))) ∧
    ((validRows table).length < min table.length size →
      selectQuads table size = .error .indexError) := by
  have h := quadLoop_spec (validRows table) size table.length 0
    (by omega)
  constructor
  · intro hle
    have h1 := h.1 (by omega)
    rw [selectQuads, h1]
    simp
  · intro hlt
    exact h.2 (by omega)

/-- Witness for C5's amended claim: the spec's 3-row example with flags
`[0, 0, 1]` and `size = 2` emits exactly the first two valid rows (first
conjunct), while `size = 3` on the same table raises `IndexError` (second
conjunct). -/
theorem C5_witness :
    selectQuads [⟨1, 2, 3, 4, 0⟩, ⟨5, 6, 7, 8, 0⟩, ⟨9, 10, 11, 12, 1⟩] 2 =
      .ok [(1, 2, 3, 4), (5, 6, 7, 8)] ∧
    selectQuads [⟨1, 2, 3, 4, 0⟩, ⟨5, 6, 7, 8, 0⟩, ⟨9, 10, 11, 12, 1⟩] 3 =
      .error .indexError := by
  constructor
  · have h := (C5_truncation
      [⟨1, 2, 3, 4, 0⟩, ⟨5, 6, 7, 8, 0⟩, ⟨9, 10, 11, 12, 1⟩] 2).1 (by decide)
    exact h.trans rfl
  · exact (C5_truncation
      [⟨1, 2, 3, 4, 0⟩, ⟨5, 6, 7, 8, 0⟩, ⟨9, 10, 11, 12, 1⟩] 3).2 (by decide)

/-! ## Full decode and output commit (`AllotropeDF._get_quads` /
`AllotropeDF.dump_ld`, lines 86-147)

`dump_ld` decodes into a fresh in-memory buffer (`io.BytesIO` wrapped in a
`TextIOWrapper`); any exception raised inside `_get_quads` propagates before
the destination is touched, and the destination receives the buffer contents
only after `_get_quads` has returned. -/

/-- `template[node_kind[i]](res_key=node_key[i], val_key=node_value_key[i])`:
dispatch over the 3-element function list; kind 3 indexes past its end and
raises `IndexError`. -/
def renderNode (ks : List (List Nat)) (ss : List Nat) (quad : Int) :
    Except DErr String :=
  if node_kind quad = 0 then blank_node ks ss (node_key quad) (node_value_key quad)
  else if node_kind quad = 1 then resource_node ks ss (node_key quad) (node_value_key quad)
  else if node_kind quad = 2 then literal_node ks ss (node_key quad) (node_value_key quad)
  else .error .indexError

/-- Decode the four node slots of one filtered row (in table column order
graph, subject, predicate, object) and assemble its output line. -/
def renderQuadLine (ks : List (List Nat)) (ss : List Nat)
    (q : Int × Int × Int × Int) : Except DErr String := do
  let graph ← renderNode ks ss q.1
  let subject ← renderNode ks ss q.2.1
  let predicate ← renderNode ks ss q.2.2.1
  let object ← renderNode ks ss q.2.2.2
  return emitLine graph subject predicate object

/-- The `_get_quads` loop with the store buffer made explicit: returns the
text written to the internal buffer so far together with the failure, if
any, that interrupted the loop.  A failing row contributes no partial line
(the `store.write` happens only after all four nodes of the row decoded). -/
def getQuadsGo (ks : List (List Nat)) (ss : List Nat)
    (filtered : List (Int × Int × Int × Int)) (size : Nat) :
    Nat → Nat → String → String × Option DErr
  | _, 0, acc => (acc, none)
  | i, k + 1, acc =>
    if size ≤ i then (acc, none)
    else
      match filtered[i]? with
      | none => (acc, some .indexError)
      | some q =>
        match renderQuadLine ks ss q with
        | .error e => (acc, some e)
        | .ok line => getQuadsGo ks ss filtered size (i + 1) k (acc ++ line)

/-- The internal buffer contents and outcome of one whole `_get_quads` run. -/
def getQuadsBuffer (ks : List (List Nat)) (ss : List Nat)
    (table : List QuadRow) (size : Nat) : String × Option DErr :=
  getQuadsGo ks ss (validRows table) size 0 table.length ""

/-- What `dump_ld` hands to the final destination: nothing when decoding
raised (the exception propagates before the destination is written), and the
complete internal buffer after a fully successful decode. -/
def dump_ld (ks : List (List Nat)) (ss : List Nat) (table : List QuadRow)
    (size : Nat) : Option String :=
  match getQuadsBuffer ks ss table size with
  | (_, some _) => none
  | (buf, none) => some buf

/-- Claim C9: on any decode-time failure the whole decode aborts and no
partial quad text reaches the final destination, even though the internal
buffer may hold partial text; the buffer is committed to the destination
exactly when the entire table decoded successfully. -/
theorem C9_output_atomicity (ks : List (List Nat)) (ss : List Nat)
    (table : List QuadRow) (size : Nat) :
    ((getQuadsBuffer ks ss table size).2.isSome →
      dump_ld ks ss table size = none) ∧
    ((getQuadsBuffer ks ss table size).2 = none →
      dump_ld ks ss table size = some (getQuadsBuffer ks ss table size).1) := by
  rcases hb : getQuadsBuffer ks ss table size with ⟨buf, err⟩
  cases err <;> simp [dump_ld, hb]

/-- Witness for C9: a one-row table whose graph slot is a blank node with an
out-of-range dictionary key (the key table is empty) fails to decode and the
destination receives nothing; an empty table decodes fully and the (empty)
buffer is committed. -/
theorem C9_witness :
    ((getQuadsBuffer [] [] [⟨0, 0, 0, 0, 0⟩] 1).2.isSome ∧
      dump_ld [] [] [⟨0, 0, 0, 0, 0⟩] 1 = none) ∧
    ((getQuadsBuffer [] [] [] 0).2 = none ∧
      dump_ld [] [] [] 0 = some "") := by
  refine ⟨⟨rfl, ?_⟩, ⟨rfl, ?_⟩⟩
  · exact (C9_output_atomicity [] [] [⟨0, 0, 0, 0, 0⟩] 1).1 rfl
  · exact ((C9_output_atomicity [] [] [] 0).2 rfl).trans rfl

end H5LD
